import Mathlib

/-!
# Tunnel agent: the connection and relay engine

A shallow embedding of `internal/ws_client.go` (the WebSocket client of the tunnel agent) and of
the part of `internal/local_api.go` that calls into it, with the properties of the forwarder, the
read loop, the reconnect loop and the wire body encoding.

Bytes are natural numbers below 256, `time.Duration` values are integers (nanoseconds) with the
`int64` wrap-around made explicit, Go maps are association lists, and the goroutines of the client
are the components of a state stepped by `step`. The base64 functions follow
`encoding/base64.StdEncoding` of the Go standard library (RFC 4648, padded, non-strict; the
decoder ignores carriage returns and line feeds).
-/

namespace TunnelAgent

/-! ## Wire body encoding (`base64.StdEncoding`) -/

/-- Alphabet of Go's `base64.StdEncoding` (`encodeStd`, RFC 4648 section 4). -/
def encodeStd : List Char :=
  "ABCDEFGHIJKLMNOPQRSTUVWXYZabcdefghijklmnopqrstuvwxyz0123456789+/".data

/-- Table `enc.encode[i]` for a six-bit index. -/
def encodeTab (i : Nat) : Char := encodeStd.getD i 'A'

/-- Table `enc.decodeMap[c]`: the index of `c` in the alphabet, `0xFF` for every other character. -/
def decodeMap (c : Char) : Nat :=
  let i := encodeStd.indexOf c
  if i < 64 then i else 0xFF

/-- Padding character of `StdEncoding`. -/
def padChar : Char := '='

/-- Model of `base64.StdEncoding.Encode` on a byte slice, producing the output characters. -/
def encodeBytes : List Nat → List Char
  | a :: b :: c :: rest =>
    let val := a <<< 16 ||| b <<< 8 ||| c
    encodeTab (val >>> 18 &&& 0x3F) :: encodeTab (val >>> 12 &&& 0x3F) ::
      encodeTab (val >>> 6 &&& 0x3F) :: encodeTab (val &&& 0x3F) :: encodeBytes rest
  | [a, b] =>
    let val := a <<< 16 ||| b <<< 8
    [encodeTab (val >>> 18 &&& 0x3F), encodeTab (val >>> 12 &&& 0x3F),
      encodeTab (val >>> 6 &&& 0x3F), padChar]
  | [a] =>
    let val := a <<< 16
    [encodeTab (val >>> 18 &&& 0x3F), encodeTab (val >>> 12 &&& 0x3F), padChar, padChar]
  | [] => []

/-- Model of `base64.StdEncoding.EncodeToString`. -/
def EncodeToString (src : List Nat) : String := String.mk (encodeBytes src)

/-- Newline characters that the decoder skips. -/
def isNewline (c : Char) : Bool := c == '\n' || c == '\r'

/-- Final step of `decodeQuantum`: turn `dlen` collected six-bit values into `dlen - 1` bytes. -/
def quantumBytes (dbuf : List Nat) : List Nat :=
  let val := dbuf.getD 0 0 <<< 18 ||| dbuf.getD 1 0 <<< 12 ||| dbuf.getD 2 0 <<< 6 ||| dbuf.getD 3 0
  ([(val >>> 16) % 256, (val >>> 8) % 256, (val >>> 0) % 256]).take (dbuf.length - 1)

/-- Model of `base64.StdEncoding.Decode` (non-strict, padded): `dbuf` holds the six-bit values
of the quantum being read; `none` stands for a `CorruptInputError`. -/
def decodeChars : List Char → List Nat → Option (List Nat)
  | [], [] => some []
  | [], _ :: _ => none
  | c :: cs, dbuf =>
    if decodeMap c ≠ 0xFF then
      if dbuf.length = 3 then
        (decodeChars cs []).map (fun out => quantumBytes (dbuf ++ [decodeMap c]) ++ out)
      else decodeChars cs (dbuf ++ [decodeMap c])
    else if isNewline c then decodeChars cs dbuf
    else if c ≠ padChar then none
    else
      match dbuf.length with
      | 2 =>
        match cs.dropWhile isNewline with
        | [] => none
        | p :: cs2 =>
          if p ≠ padChar then none
          else if (cs2.dropWhile isNewline).isEmpty then some (quantumBytes dbuf) else none
      | 3 => if (cs.dropWhile isNewline).isEmpty then some (quantumBytes dbuf) else none
      | _ => none

/-- Model of `base64.StdEncoding.DecodeString`. -/
def DecodeString (s : String) : Option (List Nat) := decodeChars s.data []

/-! ## Wire messages and the request forwarder (`ws_client.go`) -/

/-- Go `map[string]string` as an association list whose keys `mapSet` keeps distinct. -/
abbrev StrMap := List (String × String)

/-- Assignment `m[k] = v` on a Go map. -/
def mapSet : StrMap → String → String → StrMap
  | [], k, v => [(k, v)]
  | (k0, v0) :: rest, k, v => if k0 = k then (k, v) :: rest else (k0, v0) :: mapSet rest k v

/-- Lookup `m[k]` on a Go map (`none` when the key is absent). -/
def mapGet (m : StrMap) (k : String) : Option String := m.lookup k

/-- Go `http.Header`, a `map[string][]string`; the list order stands for one iteration order. -/
abbrev Header := List (String × List String)

/-- Struct `RequestMsg`: the request envelope sent by the server. -/
structure RequestMsg where
  Type_ : String
  ReqID : String
  Method : String
  Path : String
  Query : String
  Headers : StrMap
  Body : String
  deriving DecidableEq

/-- Struct `RespMsg`: the response envelope sent back to the server. -/
structure RespMsg where
  Type_ : String
  ReqID : String
  Status : Int
  Headers : StrMap
  Body : String
  Error : String
  deriving DecidableEq

/-- The `*http.Request` that `handleRequest` hands to `client.Do`. -/
structure LocalRequest where
  Method : String
  URL : String
  Body : Option (List Nat)
  Header : StrMap
  deriving DecidableEq

/-- The `*http.Response` of the local service; `Body` is the outcome of `io.ReadAll(resp.Body)`
(the bytes, or the text of the read error). -/
structure LocalResponse where
  StatusCode : Int
  Header : Header
  Body : Except String (List Nat)

/-- The local HTTP side as seen by `handleRequest`: `NewRequest method url body` is the error of
`http.NewRequest` (`none` when it succeeds), `canonicalKey` is the key normalisation of
`req.Header.Set`, and `Do` is `client.Do` with its 20 second timeout (the error text, or the
response). -/
structure LocalService where
  NewRequest : String → String → Option (List Nat) → Option String
  canonicalKey : String → String
  Do : LocalRequest → Except String LocalResponse

/-- What a forwarder does that is visible outside it: a call of the local service, or an envelope
handed to `c.conn.WriteJSON` under `writeMu`. -/
inductive Effect where
  | localCall (req : LocalRequest)
  | write (m : RespMsg)

/-- The envelopes handed to the writer, in order. -/
def writes : List Effect → List RespMsg
  | [] => []
  | Effect.write m :: rest => m :: writes rest
  | Effect.localCall _ :: rest => writes rest

/-- The local calls made, in order. -/
def localCalls : List Effect → List LocalRequest
  | [] => []
  | Effect.write _ :: rest => localCalls rest
  | Effect.localCall r :: rest => r :: localCalls rest

/-- The envelope `sendResponse` builds and passes to `WriteJSON` (lines 164-187). -/
def sendResponse (reqID : String) (status : Int) (headers : Header) (body : List Nat) : RespMsg :=
  { Type_ := "response"
    ReqID := reqID
    Status := status
    Headers := headers.foldl
      (fun m nv => match nv.2 with
        | v :: _ => mapSet m nv.1 v
        | [] => m) []
    Body := EncodeToString body
    Error := "" }

/-- The envelope `sendErrorResponse` builds and passes to `WriteJSON` (lines 189-208). -/
def sendErrorResponse (reqID errorMsg : String) : RespMsg :=
  { Type_ := "response"
    ReqID := reqID
    Status := 500
    Headers := [("Content-Type", "text/plain")]
    Body := ""
    Error := errorMsg }

/-- Lines 110-120 of `handleRequest`: the body reader for the local call. The outer `none` is a
decode error; `some none` is the nil reader used when the envelope body is the empty string. -/
def requestBody (body : String) : Option (Option (List Nat)) :=
  if body ≠ "" then
    match DecodeString body with
    | none => none
    | some bodyBytes => some (some bodyBytes)
  else some none

/-- Lines 122-126 of `handleRequest`: the URL of the local call. -/
def buildLocalURL (localURL : String) (reqMsg : RequestMsg) : String :=
  let localURL := localURL ++ reqMsg.Path
  if reqMsg.Query ≠ "" then localURL ++ "?" ++ reqMsg.Query else localURL

/-- Model of `WSClient.handleRequest` (lines 107-161): the effects of forwarding one request. -/
def handleRequest (localURL : String) (svc : LocalService) (reqMsg : RequestMsg) : List Effect :=
  match requestBody reqMsg.Body with
  | none => [Effect.write (sendErrorResponse reqMsg.ReqID "Failed to decode request body")]
  | some body =>
    let url := buildLocalURL localURL reqMsg
    match svc.NewRequest reqMsg.Method url body with
    | some _ => [Effect.write (sendErrorResponse reqMsg.ReqID "Failed to create local request")]
    | none =>
      let req : LocalRequest :=
        { Method := reqMsg.Method
          URL := url
          Body := body
          Header := reqMsg.Headers.foldl (fun h nv => mapSet h (svc.canonicalKey nv.1) nv.2) [] }
      Effect.localCall req ::
        match svc.Do req with
        | Except.error err =>
          [Effect.write (sendErrorResponse reqMsg.ReqID ("Local request failed: " ++ err))]
        | Except.ok resp =>
          match resp.Body with
          | Except.error _ =>
            [Effect.write (sendErrorResponse reqMsg.ReqID "Failed to read response body")]
          | Except.ok respBody =>
            [Effect.write (sendResponse reqMsg.ReqID resp.StatusCode resp.Header respBody)]

/-! ## The read loop (`handleMessages`) -/

/-- What one iteration of the read loop meets: the stop channel already closed, an error from
`ReadMessage`, or a message read successfully. -/
inductive Inbound where
  | stopped
  | readError
  | message (raw : String)

/-- What the read loop has done so far: the requests handed to `go c.handleRequest`, in order,
the number of `triggerReconnect` calls, and whether the loop has returned. -/
structure ReadLoop where
  dispatched : List RequestMsg
  triggers : Nat
  returned : Bool
  deriving DecidableEq

/-- Model of `WSClient.handleMessages` (lines 75-104) over the iterations it goes through;
`unmarshal` is `json.Unmarshal` into a `RequestMsg` (`none` when it fails). When the list runs
out the loop is still blocked in `ReadMessage`. -/
def handleMessages (unmarshal : String → Option RequestMsg) : List Inbound → ReadLoop
  | [] => { dispatched := [], triggers := 0, returned := false }
  | Inbound.stopped :: _ => { dispatched := [], triggers := 0, returned := true }
  | Inbound.readError :: _ => { dispatched := [], triggers := 1, returned := true }
  | Inbound.message raw :: rest =>
    let r := handleMessages unmarshal rest
    match unmarshal raw with
    | none => r
    | some reqMsg =>
      if reqMsg.Type_ = "request" then { r with dispatched := reqMsg :: r.dispatched } else r

/-! ## Reconnect loop, `Connect`, `Stop` and `IsConnected` -/

/-- Go `time.Second`, in nanoseconds (`time.Duration` is an `int64`). -/
def Second : Int := 1000000000

/-- Local `maxBackoff := 30 * time.Second` of the reconnect loop. -/
def maxBackoff : Int := 30 * Second

/-- Two's complement wrap-around of `int64` arithmetic. -/
def wrapInt64 (x : Int) : Int := (x + 2 ^ 63) % 2 ^ 64 - 2 ^ 63

/-- Lines 232-240 of the reconnect loop: the value of `backoff` after `Connect()` returned. -/
def backoffAfter (backoff : Int) (connectFailed : Bool) : Int :=
  if connectFailed then
    let backoff := wrapInt64 (backoff * 2)
    if backoff > maxBackoff then maxBackoff else backoff
  else Second

/-- What the `select` of the reconnect loop receives: the closed stop channel, or a notification
from `c.reconnect`, after which the attempt made has `Connect()` fail or succeed. -/
inductive Wake where
  | stop
  | reconnect (connectFailed : Bool)

/-- The `for` loop of `StartReconnectLoop` (lines 224-242) run on the wake-ups of its `select`:
the intervals passed to `time.Sleep`, one for each attempt, in order. -/
def reconnectLoop : Int → List Wake → List Int
  | _, [] => []
  | _, Wake.stop :: _ => []
  | backoff, Wake.reconnect connectFailed :: rest =>
    backoff :: reconnectLoop (backoffAfter backoff connectFailed) rest

/-- Model of the goroutine of `StartReconnectLoop`, which starts with `backoff := time.Second`. -/
def StartReconnectLoop (wakes : List Wake) : List Int := reconnectLoop Second wakes

/-- A `*websocket.Conn` handle; `closed` records that `Close()` was called on it. -/
structure Conn where
  closed : Bool
  deriving DecidableEq

/-- Where the goroutine of `StartReconnectLoop` stands: blocked in its `select`, inside
`time.Sleep(backoff)` with `Connect()` to follow, or returned. -/
inductive LoopPos where
  | select
  | sleeping
  | returned
  deriving DecidableEq

/-- The state of a `WSClient` and of its goroutines: `conn` is `c.conn` (`none` for nil),
`reconnect` counts the notifications buffered in `c.reconnect` (capacity 1), `stop` tells whether
`c.stop` is closed, `readers` counts the running `handleMessages` goroutines, `loop` is the place
of the reconnect goroutine (`none` before `StartReconnectLoop`) and `backoff` its local. -/
structure WSClient where
  conn : Option Conn
  reconnect : Nat
  stop : Bool
  readers : Nat
  loop : Option LoopPos
  backoff : Int
  deriving DecidableEq

/-- Model of `NewWSClient`. -/
def NewWSClient : WSClient :=
  { conn := none, reconnect := 0, stop := false, readers := 0, loop := none, backoff := Second }

/-- Model of `WSClient.Connect` (lines 59-72); `dialErr` is the error of `Dial`, which returns a
nil connection with it. The second component is the error `Connect` returns. -/
def Connect (c : WSClient) (dialErr : Option String) : WSClient × Option String :=
  match dialErr with
  | some err => ({ c with conn := none }, some ("failed to connect to server: " ++ err))
  | none => ({ c with conn := some { closed := false }, readers := c.readers + 1 }, none)

/-- Model of `WSClient.triggerReconnect` (lines 211-216): a non-blocking send. -/
def triggerReconnect (c : WSClient) : WSClient :=
  if c.reconnect < 1 then { c with reconnect := c.reconnect + 1 } else c

/-- Model of `WSClient.Stop` (lines 247-252). Closing a channel that is already closed is a
run-time panic in Go, which is the `Except.error` result. -/
def Stop (c : WSClient) : Except String WSClient :=
  if c.stop then Except.error "panic: close of closed channel"
  else
    Except.ok { c with
      stop := true
      conn := match c.conn with
        | some _ => some { closed := true }
        | none => none }

/-- Model of `WSClient.IsConnected` (lines 255-257). -/
def IsConnected (c : WSClient) : Bool := c.conn.isSome

/-- Model of `LocalAPI.handleReload` (`local_api.go`, lines 78-92): the client afterwards with
the status code and the body written to the caller; `Except.error` is the panic of `Stop()`. -/
def handleReload (method : String) (c : WSClient) : Except String (WSClient × Nat × String) :=
  if method ≠ "POST" then Except.ok (c, 405, "Method not allowed\n")
  else
    match Stop c with
    | Except.error p => Except.error p
    | Except.ok c1 => Except.ok (c1, 200, "Reload initiated")

/-- One atomic action of the client or of its surroundings. -/
inductive Event where
  /-- A caller outside the reconnect loop runs `Connect()`. -/
  | connect (dialErr : Option String)
  /-- A caller runs `StartReconnectLoop()`. -/
  | startReconnectLoop
  /-- A read loop gets an error from `ReadMessage`, signals and returns. -/
  | readError
  /-- A read loop takes `case <-c.stop` and returns. -/
  | readerStop
  /-- The reconnect loop takes `case <-c.stop` and returns. -/
  | loopStop
  /-- The reconnect loop takes `case <-c.reconnect` and starts `time.Sleep(backoff)`. -/
  | loopReconnect
  /-- The sleep of the reconnect loop is over and it runs `Connect()`. -/
  | loopDial (dialErr : Option String)
  /-- A caller runs `Stop()`. -/
  | stopCall
  deriving DecidableEq

/-- An event in which `Connect()` is invoked by the reconnect loop. -/
def Event.isLoopDial : Event → Bool
  | Event.loopDial _ => true
  | _ => false

/-- An event that is a move of the reconnect loop goroutine. -/
def Event.isLoopMove : Event → Bool
  | Event.loopStop => true
  | Event.loopReconnect => true
  | Event.loopDial _ => true
  | _ => false

/-- The step function of the client: `none` when the event cannot happen in the state (the
goroutine is not there, the channel operation cannot proceed, or `Stop()` panics). -/
def step (c : WSClient) : Event → Option WSClient
  | Event.connect dialErr => some (Connect c dialErr).1
  | Event.startReconnectLoop =>
    match c.loop with
    | none => some { c with loop := some LoopPos.select, backoff := Second }
    | some _ => none
  | Event.readError =>
    if 0 < c.readers then some (triggerReconnect { c with readers := c.readers - 1 }) else none
  | Event.readerStop =>
    if 0 < c.readers ∧ c.stop then some { c with readers := c.readers - 1 } else none
  | Event.loopStop =>
    if c.loop = some LoopPos.select ∧ c.stop then some { c with loop := some LoopPos.returned }
    else none
  | Event.loopReconnect =>
    if c.loop = some LoopPos.select ∧ 0 < c.reconnect then
      some { c with loop := some LoopPos.sleeping, reconnect := c.reconnect - 1 }
    else none
  | Event.loopDial dialErr =>
    if c.loop = some LoopPos.sleeping then
      let r := Connect c dialErr
      some { r.1 with loop := some LoopPos.select, backoff := backoffAfter c.backoff r.2.isSome }
    else none
  | Event.stopCall =>
    match Stop c with
    | Except.ok c2 => some c2
    | Except.error _ => none

/-- Run a sequence of events; `none` when one of them cannot happen. -/
def run : WSClient → List Event → Option WSClient
  | c, [] => some c
  | c, e :: rest =>
    match step c e with
    | none => none
    | some c2 => run c2 rest

/-- Scenario B of the specification: a local service that cannot be reached, so that every
`client.Do` returns an error. -/
def unreachableService : LocalService :=
  { NewRequest := fun _ _ _ => none
    canonicalKey := fun k => k
    Do := fun _ => Except.error "connection refused" }

/-- Scenario A of the specification: a local service that answers every request with status
200, the header `Content-Type: text/plain` and the body "ok" (bytes 111, 107). -/
def okService : LocalService :=
  { NewRequest := fun _ _ _ => none
    canonicalKey := fun k => k
    Do := fun _ => Except.ok
      { StatusCode := 200
        Header := [("Content-Type", ["text/plain"])]
        Body := Except.ok [111, 107] } }

/-- The requests the specification wants dispatched for a run of inbound messages: those that
decode as an envelope and carry the type "request", in arrival order. -/
def wellFormedRequests (unmarshal : String → Option RequestMsg) (raws : List String) :
    List RequestMsg :=
  raws.filterMap (fun raw =>
    match unmarshal raw with
    | some reqMsg => if reqMsg.Type_ = "request" then some reqMsg else none
    | none => none)

/-- A decoder used to exercise the read loop: "bad" does not decode, and every other message
decodes to a request envelope whose id is the message text. -/
def sampleUnmarshal (raw : String) : Option RequestMsg :=
  if raw = "bad" then none
  else some { Type_ := "request", ReqID := raw, Method := "GET", Path := "/", Query := "",
              Headers := [], Body := "" }

/-! ## Lemmas on the wire body encoding -/

theorem decodeMap_encodeTab (i : Nat) (h : i < 64) : decodeMap (encodeTab i) = i := by
  have key : ∀ j : Fin 64, decodeMap (encodeTab j.val) = j.val := by decide
  exact key ⟨i, h⟩

theorem pack3 (a b c : Nat) (hb : b < 256) (hc : c < 256) :
    a <<< 16 ||| b <<< 8 ||| c = a * 65536 + b * 256 + c := by
  have h1 : a <<< 16 ||| b <<< 8 = 2 ^ 16 * a + 2 ^ 8 * b := by
    rw [Nat.shiftLeft_eq, Nat.shiftLeft_eq, Nat.mul_comm a, Nat.mul_comm b]
    exact (Nat.mul_add_lt_is_or (by omega) a).symm
  rw [h1]
  have h2 : 2 ^ 16 * a + 2 ^ 8 * b = 2 ^ 8 * (2 ^ 8 * a + b) := by ring
  rw [h2, ← Nat.mul_add_lt_is_or (by omega : c < 2 ^ 8)]
  ring

theorem pack4 (p q r s : Nat) (hq : q < 64) (hr : r < 64) (hs : s < 64) :
    p <<< 18 ||| q <<< 12 ||| r <<< 6 ||| s = p * 262144 + q * 4096 + r * 64 + s := by
  have h1 : p <<< 18 ||| q <<< 12 = 2 ^ 18 * p + 2 ^ 12 * q := by
    rw [Nat.shiftLeft_eq, Nat.shiftLeft_eq, Nat.mul_comm p, Nat.mul_comm q]
    exact (Nat.mul_add_lt_is_or (by omega) p).symm
  have h2 : 2 ^ 18 * p + 2 ^ 12 * q ||| r <<< 6 = 2 ^ 12 * (2 ^ 6 * p + q) + 2 ^ 6 * r := by
    rw [Nat.shiftLeft_eq, Nat.mul_comm r]
    have : 2 ^ 18 * p + 2 ^ 12 * q = 2 ^ 12 * (2 ^ 6 * p + q) := by ring
    rw [this]
    exact (Nat.mul_add_lt_is_or (by omega) _).symm
  rw [h1, h2]
  have h3 : 2 ^ 12 * (2 ^ 6 * p + q) + 2 ^ 6 * r = 2 ^ 6 * (2 ^ 6 * (2 ^ 6 * p + q) + r) := by ring
  rw [h3, ← Nat.mul_add_lt_is_or (by omega : s < 2 ^ 6)]
  ring

theorem and63 (x : Nat) : x &&& 0x3F = x % 64 := Nat.and_pow_two_sub_one_eq_mod x 6

theorem decodeChars_valid (s : Nat) (hs : s < 64) (cs : List Char) (dbuf : List Nat) :
    decodeChars (encodeTab s :: cs) dbuf =
      if dbuf.length = 3 then
        (decodeChars cs []).map (fun out => quantumBytes (dbuf ++ [s]) ++ out)
      else decodeChars cs (dbuf ++ [s]) := by
  have h := decodeMap_encodeTab s hs
  have hne : decodeMap (encodeTab s) ≠ 0xFF := by omega
  rw [decodeChars, if_pos hne, h]

theorem decodeChars_pad (cs : List Char) (dbuf : List Nat) :
    decodeChars (padChar :: cs) dbuf =
      match dbuf.length with
      | 2 =>
        match cs.dropWhile isNewline with
        | [] => none
        | p :: cs2 =>
          if p ≠ padChar then none
          else if (cs2.dropWhile isNewline).isEmpty then some (quantumBytes dbuf) else none
      | 3 => if (cs.dropWhile isNewline).isEmpty then some (quantumBytes dbuf) else none
      | _ => none := by
  have h1 : ¬ (decodeMap padChar ≠ 0xFF) := by decide
  have h2 : ¬ (isNewline padChar = true) := by decide
  have h3 : ¬ (padChar ≠ padChar) := by simp
  rw [decodeChars, if_neg h1, if_neg h2, if_neg h3]

theorem decodeChars_quantum (s0 s1 s2 s3 : Nat) (h0 : s0 < 64) (h1 : s1 < 64) (h2 : s2 < 64)
    (h3 : s3 < 64) (cs : List Char) :
    decodeChars (encodeTab s0 :: encodeTab s1 :: encodeTab s2 :: encodeTab s3 :: cs) [] =
      (decodeChars cs []).map (fun out => quantumBytes [s0, s1, s2, s3] ++ out) := by
  rw [decodeChars_valid s0 h0]
  simp only [List.length_nil, List.nil_append]
  rw [if_neg (by decide), decodeChars_valid s1 h1]
  simp only [List.length_cons, List.length_nil, List.cons_append, List.nil_append]
  rw [if_neg (by decide), decodeChars_valid s2 h2]
  simp only [List.length_cons, List.length_nil, List.cons_append, List.nil_append]
  rw [if_neg (by decide), decodeChars_valid s3 h3]
  simp only [List.length_cons, List.length_nil, List.cons_append, List.nil_append]
  rw [if_pos (by decide)]

theorem decodeChars_pad1 (s0 s1 s2 : Nat) (h0 : s0 < 64) (h1 : s1 < 64) (h2 : s2 < 64) :
    decodeChars [encodeTab s0, encodeTab s1, encodeTab s2, padChar] [] =
      some (quantumBytes [s0, s1, s2]) := by
  rw [decodeChars_valid s0 h0]
  simp only [List.length_nil, List.nil_append]
  rw [if_neg (by decide), decodeChars_valid s1 h1]
  simp only [List.length_cons, List.length_nil, List.cons_append, List.nil_append]
  rw [if_neg (by decide), decodeChars_valid s2 h2]
  simp only [List.length_cons, List.length_nil, List.cons_append, List.nil_append]
  rw [if_neg (by decide), decodeChars_pad]
  simp

theorem decodeChars_pad2 (s0 s1 : Nat) (h0 : s0 < 64) (h1 : s1 < 64) :
    decodeChars [encodeTab s0, encodeTab s1, padChar, padChar] [] =
      some (quantumBytes [s0, s1]) := by
  rw [decodeChars_valid s0 h0]
  simp only [List.length_nil, List.nil_append]
  rw [if_neg (by decide), decodeChars_valid s1 h1]
  simp only [List.length_cons, List.length_nil, List.cons_append, List.nil_append]
  rw [if_neg (by decide), decodeChars_pad]
  have hp : isNewline padChar = false := by decide
  simp [List.dropWhile, hp]

theorem quantumBytes_full (a b c : Nat) (ha : a < 256) (hb : b < 256) (hc : c < 256) :
    quantumBytes [(a * 65536 + b * 256 + c) >>> 18 % 64, (a * 65536 + b * 256 + c) >>> 12 % 64,
      (a * 65536 + b * 256 + c) >>> 6 % 64, (a * 65536 + b * 256 + c) % 64] = [a, b, c] := by
  unfold quantumBytes
  simp only [List.getD_cons_zero, List.getD_cons_succ, List.length_cons,
    List.length_nil]
  rw [pack4 _ _ _ _ (Nat.mod_lt _ (by norm_num)) (Nat.mod_lt _ (by norm_num))
    (Nat.mod_lt _ (by norm_num))]
  simp only [Nat.shiftRight_eq_div_pow]
  norm_num
  refine ⟨?_, ?_, ?_⟩ <;> omega

theorem quantumBytes_two (a b : Nat) (ha : a < 256) (hb : b < 256) :
    quantumBytes [(a * 65536 + b * 256) >>> 18 % 64, (a * 65536 + b * 256) >>> 12 % 64,
      (a * 65536 + b * 256) >>> 6 % 64] = [a, b] := by
  unfold quantumBytes
  simp only [List.getD_cons_zero, List.getD_cons_succ, List.length_cons,
    List.length_nil, List.getD_nil]
  rw [pack4 _ _ _ _ (Nat.mod_lt _ (by norm_num)) (Nat.mod_lt _ (by norm_num))
    (by norm_num)]
  simp only [Nat.shiftRight_eq_div_pow]
  norm_num
  refine ⟨?_, ?_⟩ <;> omega

theorem quantumBytes_one (a : Nat) (ha : a < 256) :
    quantumBytes [(a * 65536) >>> 18 % 64, (a * 65536) >>> 12 % 64] = [a] := by
  unfold quantumBytes
  simp only [List.getD_cons_zero, List.getD_cons_succ, List.length_cons,
    List.length_nil, List.getD_nil]
  rw [pack4 _ _ _ _ (Nat.mod_lt _ (by norm_num)) (by norm_num) (by norm_num)]
  simp only [Nat.shiftRight_eq_div_pow]
  norm_num
  omega

theorem decodeChars_encodeBytes (src : List Nat) (h : ∀ x ∈ src, x < 256) :
    decodeChars (encodeBytes src) [] = some src := by
  induction src using encodeBytes.induct with
  | case1 a b c rest ih =>
    have ha : a < 256 := h a (by simp)
    have hb : b < 256 := h b (by simp)
    have hc : c < 256 := h c (by simp)
    have hrest : ∀ x ∈ rest, x < 256 := fun x hx => h x (by simp [hx])
    rw [encodeBytes]
    simp only [and63, pack3 a b c hb hc]
    rw [decodeChars_quantum _ _ _ _ (Nat.mod_lt _ (by norm_num)) (Nat.mod_lt _ (by norm_num))
      (Nat.mod_lt _ (by norm_num)) (Nat.mod_lt _ (by norm_num)), ih hrest,
      quantumBytes_full a b c ha hb hc]
    rfl
  | case2 a b =>
    have ha : a < 256 := h a (by simp)
    have hb : b < 256 := h b (by simp)
    rw [encodeBytes]
    have hp : a <<< 16 ||| b <<< 8 = a * 65536 + b * 256 := by
      have := pack3 a b 0 hb (by norm_num)
      simpa using this
    simp only [and63, hp]
    rw [decodeChars_pad1 _ _ _ (Nat.mod_lt _ (by norm_num)) (Nat.mod_lt _ (by norm_num))
      (Nat.mod_lt _ (by norm_num)), quantumBytes_two a b ha hb]
  | case3 a =>
    have ha : a < 256 := h a (by simp)
    rw [encodeBytes]
    have hp : a <<< 16 = a * 65536 := by rw [Nat.shiftLeft_eq]
    simp only [and63, hp]
    rw [decodeChars_pad2 _ _ (Nat.mod_lt _ (by norm_num)) (Nat.mod_lt _ (by norm_num)),
      quantumBytes_one a ha]
  | case4 => rfl

/-! ## Forwarder -/

theorem lookup_cons_ite {β : Type} (name k : String) (v : β) (rest : List (String × β)) :
    List.lookup name ((k, v) :: rest) = if name = k then some v else List.lookup name rest := by
  by_cases h : name = k
  · have hb : (name == k) = true := by simpa using h
    simp [List.lookup, hb, h]
  · have hb : (name == k) = false := by simpa using h
    simp [List.lookup, hb, h]

theorem mapGet_mapSet (m : StrMap) (k v name : String) :
    mapGet (mapSet m k v) name = if name = k then some v else mapGet m name := by
  unfold mapGet
  induction m with
  | nil => simp [mapSet, lookup_cons_ite]
  | cons kv rest ih =>
    obtain ⟨k0, v0⟩ := kv
    by_cases h0 : k0 = k
    · subst h0
      simp only [mapSet, if_true, lookup_cons_ite]
      split <;> rfl
    · simp only [mapSet, if_neg h0, lookup_cons_ite, ih]
      by_cases h : name = k
      · subst h
        have : ¬ name = k0 := fun e => h0 e.symm
        simp [this]
      · simp [h]

theorem lookup_absent (H : Header) (name : String) (h : name ∉ H.map Prod.fst) :
    H.lookup name = none := by
  induction H with
  | nil => rfl
  | cons kv rest ih =>
    obtain ⟨k0, v0⟩ := kv
    simp only [List.map_cons, List.mem_cons, not_or] at h
    rw [lookup_cons_ite, if_neg h.1, ih h.2]

/-- The header copy loop of `sendResponse`, started from any map. -/
theorem copyHeaders_get (H : Header) (acc : StrMap) (name : String)
    (hH : (H.map Prod.fst).Nodup) :
    mapGet (H.foldl (fun m nv => match nv.2 with
        | v :: _ => mapSet m nv.1 v
        | [] => m) acc) name =
      match H.lookup name with
      | some (v :: _) => some v
      | _ => mapGet acc name := by
  induction H generalizing acc with
  | nil => simp [List.lookup]
  | cons kv rest ih =>
    obtain ⟨k0, vs⟩ := kv
    simp only [List.map_cons, List.nodup_cons] at hH
    rw [List.foldl_cons, ih _ hH.2, lookup_cons_ite]
    by_cases h : name = k0
    · subst h
      rw [lookup_absent rest name hH.1]
      cases vs with
      | nil => simp
      | cons v vs => simp [mapGet_mapSet]
    · rw [if_neg h]
      cases vs with
      | nil => rfl
      | cons v vs => simp only [mapGet_mapSet, if_neg h]

theorem string_append_ne_empty (a b : String) (h : a ≠ "") : a ++ b ≠ "" := by
  intro hab
  have h1 : (a ++ b).length = 0 := by rw [hab]; rfl
  rw [String.length_append] at h1
  have h2 : a.length = 0 := by omega
  apply h
  have h3 : a.data = [] := List.length_eq_zero.mp h2
  exact String.ext h3

theorem sendErrorResponse_shape (reqID errorMsg : String) (h : errorMsg ≠ "") :
    (sendErrorResponse reqID errorMsg).Status = 500 ∧
      (sendErrorResponse reqID errorMsg).Error ≠ "" ∧
      (sendErrorResponse reqID errorMsg).Body = "" := ⟨rfl, h, rfl⟩

/-- C1: for every request envelope and every outcome of the forwarding steps (body decode, local
request creation, local call, reading the response body), `handleRequest` hands exactly one
envelope to the writer; its type is "response" and its req_id is that of the request. -/
theorem handleRequest_writes_exactly_one (localURL : String) (svc : LocalService)
    (reqMsg : RequestMsg) :
    ∃ m, writes (handleRequest localURL svc reqMsg) = [m] ∧
      m.Type_ = "response" ∧ m.ReqID = reqMsg.ReqID := by
  unfold handleRequest
  split
  · exact ⟨_, rfl, rfl, rfl⟩
  · dsimp only
    split
    · exact ⟨_, rfl, rfl, rfl⟩
    · split
      · exact ⟨_, rfl, rfl, rfl⟩
      · split
        · exact ⟨_, rfl, rfl, rfl⟩
        · exact ⟨_, rfl, rfl, rfl⟩

/-- The fields of the envelope `sendResponse` builds, for a header map with distinct keys. -/
theorem sendResponse_fields (reqID : String) (s : Int) (H : Header) (b : List Nat)
    (hH : (H.map Prod.fst).Nodup) :
    (sendResponse reqID s H b).Status = s ∧
      (sendResponse reqID s H b).Error = "" ∧
      (sendResponse reqID s H b).Body = EncodeToString b ∧
      ∀ name, mapGet (sendResponse reqID s H b).Headers name =
        match H.lookup name with
        | some (v :: _) => some v
        | _ => none := by
  refine ⟨rfl, rfl, rfl, fun name => ?_⟩
  have h := copyHeaders_get H [] name hH
  simpa [sendResponse, mapGet] using h

/-- On the success path the only write of `handleRequest` is the envelope `sendResponse` builds
from the local response obtained. -/
theorem handleRequest_success_write (localURL : String) (svc : LocalService)
    (reqMsg : RequestMsg) (req : LocalRequest) (resp : LocalResponse) (b : List Nat)
    (hcall : req ∈ localCalls (handleRequest localURL svc reqMsg))
    (hdo : svc.Do req = Except.ok resp) (hread : resp.Body = Except.ok b) :
    writes (handleRequest localURL svc reqMsg) =
      [sendResponse reqMsg.ReqID resp.StatusCode resp.Header b] := by
  unfold handleRequest at hcall ⊢
  rcases hb : requestBody reqMsg.Body with _ | body
  · rw [hb] at hcall
    simp [localCalls] at hcall
  · rw [hb] at hcall
    dsimp only at hcall ⊢
    rcases hn : svc.NewRequest reqMsg.Method (buildLocalURL localURL reqMsg) body with _ | e
    · rw [hn] at hcall
      dsimp only at hcall ⊢
      rcases hd : svc.Do
          { Method := reqMsg.Method, URL := buildLocalURL localURL reqMsg, Body := body,
            Header := List.foldl (fun h nv => mapSet h (svc.canonicalKey nv.1) nv.2) []
              reqMsg.Headers } with err | resp0
      · rw [hd] at hcall
        simp only [localCalls, List.mem_singleton] at hcall
        subst hcall
        rw [hd] at hdo
        cases hdo
      · rw [hd] at hcall
        dsimp only at hcall ⊢
        have hreq : req =
            { Method := reqMsg.Method, URL := buildLocalURL localURL reqMsg, Body := body,
              Header := List.foldl (fun h nv => mapSet h (svc.canonicalKey nv.1) nv.2) []
                reqMsg.Headers } := by
          rcases hr0 : resp0.Body with err | b0
          · rw [hr0] at hcall
            simpa [localCalls] using hcall
          · rw [hr0] at hcall
            simpa [localCalls] using hcall
        subst hreq
        rw [hd] at hdo
        cases hdo
        rw [hread]
        rfl
    · rw [hn] at hcall
      simp [localCalls] at hcall

/-- C2: whenever `handleRequest` makes its local call and obtains a local response with status
`s`, header multimap `H` (a Go map, so its keys are distinct) and fully read body `b`, the one
envelope it hands to the writer is the one `sendResponse` builds from that response: its type is
"response", its req_id is the request's, its status is `s`, its error field is empty, its body is
the standard base64 encoding of `b`, and its headers map holds exactly the names of `H` with at
least one value, each mapped to its first value. -/
theorem handleRequest_success_envelope (localURL : String) (svc : LocalService)
    (reqMsg : RequestMsg) (req : LocalRequest) (resp : LocalResponse) (b : List Nat)
    (hcall : req ∈ localCalls (handleRequest localURL svc reqMsg))
    (hdo : svc.Do req = Except.ok resp) (hread : resp.Body = Except.ok b)
    (hH : (resp.Header.map Prod.fst).Nodup) :
    ∃ m, writes (handleRequest localURL svc reqMsg) = [m] ∧
      m = sendResponse reqMsg.ReqID resp.StatusCode resp.Header b ∧
      m.Type_ = "response" ∧ m.ReqID = reqMsg.ReqID ∧
      m.Status = resp.StatusCode ∧ m.Error = "" ∧ m.Body = EncodeToString b ∧
      ∀ name, mapGet m.Headers name =
        match resp.Header.lookup name with
        | some (v :: _) => some v
        | _ => none := by
  have hf := sendResponse_fields reqMsg.ReqID resp.StatusCode resp.Header b hH
  exact ⟨_, handleRequest_success_write localURL svc reqMsg req resp b hcall hdo hread, rfl, rfl,
    rfl, hf.1, hf.2.1, hf.2.2.1, hf.2.2.2⟩

/-- Scenario A of the specification: the local service answers 200 with
`Content-Type: text/plain` and body "ok" to the forwarded request `GET /x`; the envelope written
has status 200, exactly that header, and a body that decodes to "ok". -/
theorem handleRequest_success_envelope_witness :
    ((({ Method := "GET", URL := "http://127.0.0.1:9000/x", Body := none, Header := [] } :
          LocalRequest) ∈
        localCalls (handleRequest "http://127.0.0.1:9000" okService
          { Type_ := "request", ReqID := "r1", Method := "GET", Path := "/x", Query := "",
            Headers := [], Body := "" })) ∧
      ([("Content-Type", ["text/plain"])].map Prod.fst).Nodup) ∧
    (∃ m, writes (handleRequest "http://127.0.0.1:9000" okService
          { Type_ := "request", ReqID := "r1", Method := "GET", Path := "/x", Query := "",
            Headers := [], Body := "" }) = [m] ∧
      m = sendResponse "r1" 200 [("Content-Type", ["text/plain"])] [111, 107] ∧
      m.Type_ = "response" ∧ m.ReqID = "r1" ∧
      m.Status = 200 ∧ m.Error = "" ∧ m.Body = EncodeToString [111, 107] ∧
      ∀ name, mapGet m.Headers name =
        match List.lookup name [("Content-Type", ["text/plain"])] with
        | some (v :: _) => some v
        | _ => none) ∧
    writes (handleRequest "http://127.0.0.1:9000" okService
        { Type_ := "request", ReqID := "r1", Method := "GET", Path := "/x", Query := "",
          Headers := [], Body := "" }) =
      [{ Type_ := "response", ReqID := "r1", Status := 200,
         Headers := [("Content-Type", "text/plain")], Body := "b2s=", Error := "" }] ∧
    DecodeString "b2s=" = some [111, 107] :=
  ⟨⟨by decide, by decide⟩,
    handleRequest_success_envelope "http://127.0.0.1:9000" okService
      { Type_ := "request", ReqID := "r1", Method := "GET", Path := "/x", Query := "",
        Headers := [], Body := "" }
      { Method := "GET", URL := "http://127.0.0.1:9000/x", Body := none, Header := [] }
      { StatusCode := 200, Header := [("Content-Type", ["text/plain"])],
        Body := Except.ok [111, 107] }
      [111, 107] (by decide) rfl rfl (by decide),
    by decide, by decide⟩

/-- C3: whenever the forwarder obtains no local response (no local call was made that returned a
response whose body could be read: the envelope body is not valid base64, the local request
cannot be created, the local call fails, or the body read fails), the envelope it writes has
status 500, a non-empty error string and an empty body; and when the envelope body does not
decode, that envelope is the only effect, so no local call is attempted. -/
theorem handleRequest_failure_envelope (localURL : String) (svc : LocalService)
    (reqMsg : RequestMsg) :
    (∀ m ∈ writes (handleRequest localURL svc reqMsg),
      (¬ ∃ req resp body, req ∈ localCalls (handleRequest localURL svc reqMsg) ∧
        svc.Do req = Except.ok resp ∧ resp.Body = Except.ok body) →
      m.Status = 500 ∧ m.Error ≠ "" ∧ m.Body = "") ∧
    (DecodeString reqMsg.Body = none →
      handleRequest localURL svc reqMsg =
        [Effect.write (sendErrorResponse reqMsg.ReqID "Failed to decode request body")]) := by
  constructor
  · intro m hm hno
    unfold handleRequest at hm hno
    rcases hb : requestBody reqMsg.Body with _ | body
    · rw [hb] at hm
      simp only [writes, List.mem_singleton] at hm
      subst hm
      exact sendErrorResponse_shape _ _ (by decide)
    · rw [hb] at hm hno
      dsimp only at hm hno
      rcases hn : svc.NewRequest reqMsg.Method (buildLocalURL localURL reqMsg) body with _ | e
      · rw [hn] at hm hno
        dsimp only at hm hno
        rcases hd : svc.Do
            { Method := reqMsg.Method, URL := buildLocalURL localURL reqMsg, Body := body,
              Header := List.foldl (fun h nv => mapSet h (svc.canonicalKey nv.1) nv.2) []
                reqMsg.Headers } with err | resp
        · rw [hd] at hm
          simp only [writes, List.mem_singleton] at hm
          subst hm
          exact sendErrorResponse_shape _ _ (string_append_ne_empty _ _ (by decide))
        · rw [hd] at hm hno
          dsimp only at hm hno
          rcases hr : resp.Body with err | respBody
          · rw [hr] at hm
            simp only [writes, List.mem_singleton] at hm
            subst hm
            exact sendErrorResponse_shape _ _ (by decide)
          · exfalso
            apply hno
            exact ⟨_, resp, respBody, by simp [localCalls], hd, hr⟩
      · rw [hn] at hm
        simp only [writes, List.mem_singleton] at hm
        subst hm
        exact sendErrorResponse_shape _ _ (by decide)
  · intro hdec
    have hne : reqMsg.Body ≠ "" := by
      intro h
      rw [h] at hdec
      exact absurd hdec (by decide)
    unfold handleRequest requestBody
    rw [if_pos hne, hdec]

/-- Scenario B of the specification (the local service cannot be reached), and an envelope whose
body is not base64. -/
theorem handleRequest_failure_envelope_witness :
    (sendErrorResponse "r1" "Local request failed: connection refused" ∈
        writes (handleRequest "http://127.0.0.1:9000" unreachableService
          { Type_ := "request", ReqID := "r1", Method := "GET", Path := "/x", Query := "",
            Headers := [], Body := "" }) ∧
      (sendErrorResponse "r1" "Local request failed: connection refused").Status = 500 ∧
      (sendErrorResponse "r1" "Local request failed: connection refused").Error ≠ "" ∧
      (sendErrorResponse "r1" "Local request failed: connection refused").Body = "") ∧
    (DecodeString "a" = none ∧
      handleRequest "http://127.0.0.1:9000" unreachableService
          { Type_ := "request", ReqID := "r2", Method := "POST", Path := "/x", Query := "",
            Headers := [], Body := "a" } =
        [Effect.write (sendErrorResponse "r2" "Failed to decode request body")]) :=
  ⟨⟨by decide,
    (handleRequest_failure_envelope "http://127.0.0.1:9000" unreachableService
      { Type_ := "request", ReqID := "r1", Method := "GET", Path := "/x", Query := "",
        Headers := [], Body := "" }).1 _ (by decide)
      (by
        rintro ⟨req, resp, body, -, hdo, -⟩
        simp [unreachableService] at hdo)⟩,
   ⟨by decide,
    (handleRequest_failure_envelope "http://127.0.0.1:9000" unreachableService
      { Type_ := "request", ReqID := "r2", Method := "POST", Path := "/x", Query := "",
        Headers := [], Body := "a" }).2 (by decide)⟩⟩

/-! ## Read loop -/

theorem handleMessages_messages (unmarshal : String → Option RequestMsg) (raws : List String)
    (rest : List Inbound) :
    handleMessages unmarshal (raws.map Inbound.message ++ rest) =
      { handleMessages unmarshal rest with
        dispatched := wellFormedRequests unmarshal raws ++
          (handleMessages unmarshal rest).dispatched } := by
  induction raws with
  | nil => simp [wellFormedRequests]
  | cons raw raws ih =>
    rw [List.map_cons, List.cons_append, handleMessages, ih]
    rcases h : unmarshal raw with _ | reqMsg
    · have hw : wellFormedRequests unmarshal (raw :: raws) = wellFormedRequests unmarshal raws := by
        simp [wellFormedRequests, List.filterMap_cons, h]
      rw [hw]
    · by_cases ht : reqMsg.Type_ = "request"
      · have hw : wellFormedRequests unmarshal (raw :: raws) =
            reqMsg :: wellFormedRequests unmarshal raws := by
          simp [wellFormedRequests, List.filterMap_cons, h, ht]
        rw [hw]
        simp [ht]
      · have hw : wellFormedRequests unmarshal (raw :: raws) =
            wellFormedRequests unmarshal raws := by
          simp [wellFormedRequests, List.filterMap_cons, h, ht]
        rw [hw]
        simp [ht]

theorem wellFormedRequests_append (unmarshal : String → Option RequestMsg)
    (xs ys : List String) :
    wellFormedRequests unmarshal (xs ++ ys) =
      wellFormedRequests unmarshal xs ++ wellFormedRequests unmarshal ys := by
  simp [wellFormedRequests, List.filterMap_append]

/-- C6: a successfully read message that fails to decode as an envelope is discarded: it adds
no dispatch, no reconnect trigger and does not end the read loop. For messages `pre`, a message
`bad` that does not decode, messages `post` and whatever the loop meets afterwards (`rest`), the
well-formed requests of `pre` and of `post` are dispatched in arrival order, and the triggers and
the end of the loop are those of `rest` alone. -/
theorem handleMessages_skips_malformed (unmarshal : String → Option RequestMsg)
    (pre post : List String) (bad : String) (rest : List Inbound)
    (hbad : unmarshal bad = none) :
    handleMessages unmarshal ((pre ++ bad :: post).map Inbound.message ++ rest) =
      { dispatched := wellFormedRequests unmarshal pre ++ wellFormedRequests unmarshal post ++
          (handleMessages unmarshal rest).dispatched
        triggers := (handleMessages unmarshal rest).triggers
        returned := (handleMessages unmarshal rest).returned } := by
  rw [handleMessages_messages, wellFormedRequests_append]
  have h1 : wellFormedRequests unmarshal (bad :: post) = wellFormedRequests unmarshal post := by
    simp [wellFormedRequests, List.filterMap_cons, hbad]
  rw [h1]

/-- A malformed message between two requests, with the loop still reading afterwards. -/
theorem handleMessages_skips_malformed_witness :
    sampleUnmarshal "bad" = none ∧
      handleMessages sampleUnmarshal ((["a"] ++ "bad" :: ["b"]).map Inbound.message ++ []) =
        { dispatched := wellFormedRequests sampleUnmarshal ["a"] ++
            wellFormedRequests sampleUnmarshal ["b"] ++
            (handleMessages sampleUnmarshal []).dispatched
          triggers := (handleMessages sampleUnmarshal []).triggers
          returned := (handleMessages sampleUnmarshal []).returned } ∧
      (handleMessages sampleUnmarshal
          [Inbound.message "a", Inbound.message "bad", Inbound.message "b"]).dispatched.map
        (fun r => r.ReqID) = ["a", "b"] ∧
      (handleMessages sampleUnmarshal
          [Inbound.message "a", Inbound.message "bad", Inbound.message "b"]).returned = false :=
  ⟨by decide, handleMessages_skips_malformed sampleUnmarshal ["a"] ["b"] "bad" [] (by decide),
    by decide, by decide⟩

/-! ## Wire body encoding -/

theorem encodeBytes_ne_nil (b : List Nat) (h : b ≠ []) : encodeBytes b ≠ [] := by
  match b, h with
  | [_], _ => simp [encodeBytes]
  | [_, _], _ => simp [encodeBytes]
  | _ :: _ :: _ :: _, _ => simp [encodeBytes]

/-- C10: for every byte sequence `b`, the empty one included, encoding `b` as `sendResponse`
does and decoding the result as `handleRequest` decodes an envelope body succeeds and yields
exactly `b`; for the empty `b` the encoded body is the empty string, for which `handleRequest`
keeps the nil reader without decoding. -/
theorem body_roundtrip (b : List Nat) (hb : ∀ x ∈ b, x < 256) :
    ∃ body, requestBody (EncodeToString b) = some body ∧ body.getD [] = b ∧
      (b = [] → EncodeToString b = "" ∧ body = none) ∧
      DecodeString (EncodeToString b) = some b := by
  have hdec : DecodeString (EncodeToString b) = some b := by
    unfold DecodeString EncodeToString
    exact decodeChars_encodeBytes b hb
  by_cases hnil : b = []
  · subst hnil
    exact ⟨none, by decide, rfl, fun _ => ⟨by decide, rfl⟩, hdec⟩
  · have hne : EncodeToString b ≠ "" := by
      intro h
      apply encodeBytes_ne_nil b hnil
      have := congrArg String.data h
      simpa [EncodeToString] using this
    refine ⟨some b, ?_, rfl, fun h => absurd h hnil, hdec⟩
    unfold requestBody
    rw [if_pos hne, hdec]

/-- The bytes of "ok" through the wire body encoding. -/
theorem body_roundtrip_witness :
    (∀ x ∈ [111, 107], x < 256) ∧
      ∃ body, requestBody (EncodeToString [111, 107]) = some body ∧ body.getD [] = [111, 107] ∧
        (([111, 107] : List Nat) = [] → EncodeToString [111, 107] = "" ∧ body = none) ∧
        DecodeString (EncodeToString [111, 107]) = some [111, 107] :=
  ⟨by decide, body_roundtrip [111, 107] (by decide)⟩

/-! ## Reconnect loop -/

theorem wrapInt64_of_small (x : Int) (h1 : 0 ≤ x) (h2 : x ≤ 60 * Second) : wrapInt64 x = x := by
  unfold wrapInt64
  unfold Second at h2
  rw [Int.emod_eq_of_lt (by omega) (by omega)]
  omega

theorem backoffAfter_failed (k : Nat) :
    backoffAfter ((min (2 ^ k) 30 : Int) * Second) true = (min (2 ^ (k + 1)) 30 : Int) * Second := by
  have hpos : (1 : Int) ≤ 2 ^ k := by exact_mod_cast Nat.one_le_two_pow
  have hsucc : (2 : Int) ^ (k + 1) = 2 * 2 ^ k := by ring
  rw [hsucc]
  generalize (2 : Int) ^ k = x at hpos
  simp only [backoffAfter, if_true]
  rw [wrapInt64_of_small _ (by unfold Second; omega) (by unfold Second; omega)]
  simp only [maxBackoff, Second]
  split <;> omega

theorem backoffAfter_bounds (backoff : Int) (connectFailed : Bool)
    (h : Second ≤ backoff ∧ backoff ≤ 30 * Second) :
    Second ≤ backoffAfter backoff connectFailed ∧
      backoffAfter backoff connectFailed ≤ 30 * Second := by
  cases connectFailed with
  | false => simp [backoffAfter, Second]
  | true =>
    simp only [backoffAfter, if_true]
    rw [wrapInt64_of_small _ (by unfold Second at h; omega) (by unfold Second at h ⊢; omega)]
    simp only [maxBackoff, Second] at h ⊢
    split <;> omega

theorem reconnectLoop_failures (k n : Nat) :
    reconnectLoop ((min (2 ^ k) 30 : Int) * Second) (List.replicate n (Wake.reconnect true)) =
      (List.range n).map (fun i => (min (2 ^ (k + i)) 30 : Int) * Second) := by
  induction n generalizing k with
  | zero => rfl
  | succ n ih =>
    rw [List.replicate_succ, reconnectLoop, backoffAfter_failed, ih (k + 1), List.range_succ_eq_map]
    simp only [List.map_cons, List.map_map, Nat.add_zero, List.cons.injEq, true_and]
    apply List.map_congr_left
    intro i _
    simp only [Function.comp_apply]
    rw [show k + 1 + i = k + (i + 1) by omega]

theorem reconnectLoop_bounds (backoff : Int) (wakes : List Wake)
    (h : Second ≤ backoff ∧ backoff ≤ 30 * Second) :
    ∀ d ∈ reconnectLoop backoff wakes, Second ≤ d ∧ d ≤ 30 * Second := by
  induction wakes generalizing backoff with
  | nil => simp [reconnectLoop]
  | cons w rest ih =>
    cases w with
    | stop => simp [reconnectLoop]
    | reconnect f =>
      intro d hd
      simp only [reconnectLoop, List.mem_cons] at hd
      rcases hd with rfl | hd
      · exact h
      · exact ih _ (backoffAfter_bounds backoff f h) d hd

theorem reconnectLoop_after_success (backoff : Int) (outcomes : List Bool) (i : Nat)
    (hi : outcomes[i]? = some false) (hlen : i + 1 < outcomes.length) :
    (reconnectLoop backoff (outcomes.map Wake.reconnect))[i + 1]? = some Second := by
  induction outcomes generalizing backoff i with
  | nil => simp at hlen
  | cons o rest ih =>
    cases i with
    | zero =>
      simp only [List.getElem?_cons_zero, Option.some.injEq] at hi
      subst hi
      match rest, hlen with
      | o2 :: rest2, _ => simp [reconnectLoop, backoffAfter]
    | succ j =>
      simp only [List.getElem?_cons_succ] at hi
      simp only [List.length_cons] at hlen
      simp only [List.map_cons, reconnectLoop, List.getElem?_cons_succ]
      exact ih _ j hi (by omega)

/-- C4: starting from a fresh reconnect loop, the interval slept before the n-th consecutive
failed attempt is min(2^(n-1), 30) seconds (1, 2, 4, 8, 16, 30, 30, ...); whatever the
outcomes, every interval lies between 1 and 30 seconds; and the attempt that follows a successful
`Connect()` sleeps 1 second again. -/
theorem backoff_sequence :
    (∀ n, StartReconnectLoop (List.replicate n (Wake.reconnect true)) =
      (List.range n).map (fun i => (min (2 ^ i) 30 : Int) * Second)) ∧
    (∀ wakes, ∀ d ∈ StartReconnectLoop wakes, 1 * Second ≤ d ∧ d ≤ 30 * Second) ∧
    (∀ (outcomes : List Bool) (i : Nat), outcomes[i]? = some false → i + 1 < outcomes.length →
      (StartReconnectLoop (outcomes.map Wake.reconnect))[i + 1]? = some Second) := by
  refine ⟨fun n => ?_, fun wakes d hd => ?_, fun outcomes i hi hlen => ?_⟩
  · have h := reconnectLoop_failures 0 n
    simpa [StartReconnectLoop] using h
  · have h := reconnectLoop_bounds Second wakes (by simp [Second]) d hd
    simpa using h
  · exact reconnectLoop_after_success Second outcomes i hi hlen

/-- Eight failures in a row, and a success after three failures. -/
theorem backoff_sequence_witness :
    StartReconnectLoop (List.replicate 8 (Wake.reconnect true)) =
        [1 * Second, 2 * Second, 4 * Second, 8 * Second, 16 * Second, 30 * Second, 30 * Second,
          30 * Second] ∧
      (1 * Second ≤ 30 * Second ∧ 30 * Second ≤ 30 * Second) ∧
      ([true, true, true, false, true][3]? = some false ∧ 3 + 1 < [true, true, true, false,
          true].length ∧
        (StartReconnectLoop ([true, true, true, false, true].map Wake.reconnect))[3 + 1]? =
          some Second) :=
  ⟨by rw [backoff_sequence.1 8]; decide,
    backoff_sequence.2.1 (List.replicate 8 (Wake.reconnect true)) (30 * Second) (by decide),
    by decide, by decide, backoff_sequence.2.2 [true, true, true, false, true] 3 (by decide)
      (by decide)⟩

/-! ## Connection state, `Stop` and the reconnect loop as a transition system -/

theorem Stop_after_Stop (c c1 : WSClient) (h : Stop c = Except.ok c1) :
    Stop c1 = Except.error "panic: close of closed channel" := by
  unfold Stop at h
  split at h
  · cases h
  · cases h
    simp [Stop]

theorem readError_keeps_conn (c c1 : WSClient) (h : step c Event.readError = some c1) :
    IsConnected c1 = IsConnected c := by
  simp only [step] at h
  split at h
  · cases h
    unfold triggerReconnect IsConnected
    split <;> rfl
  · cases h

theorem loop_blocked_after_failed_dial (c c1 : WSClient) (err : String)
    (h : step c (Event.loopDial (some err)) = some c1) (hr : c.reconnect = 0)
    (hs : c.stop = false) (e : Event) (he : e.isLoopMove = true) : step c1 e = none := by
  simp only [step] at h
  split at h
  · cases h
    cases e <;> simp_all [Event.isLoopMove, step, Connect]
  · cases h

theorem loopDial_ignores_stop (c : WSClient) (d : Option String)
    (h : c.loop = some LoopPos.sleeping) : step c (Event.loopDial d) ≠ none := by
  simp [step, h]

/-- C5: evaluation of the reconnect loop at a failed attempt. After startup, one lost connection
and a reconnect attempt whose `Connect()` fails, the loop is back in its `select` with the
backoff doubled, no notification is buffered and no read loop is left to send one: no move of the
reconnect loop is possible, and the only events that can happen at all are an outside
`Connect()` and `Stop()`. In general, after a failed attempt made with no notification buffered
and no stop signal, no move of the reconnect loop is possible. -/
theorem failed_dial_is_not_retried :
    (∃ c, run NewWSClient [Event.startReconnectLoop, Event.connect none, Event.readError,
        Event.loopReconnect, Event.loopDial (some "connection refused")] = some c ∧
      c.loop = some LoopPos.select ∧ c.reconnect = 0 ∧ c.readers = 0 ∧ c.stop = false ∧
      c.backoff = 2 * Second ∧
      (∀ e : Event, e.isLoopMove = true → step c e = none) ∧
      (∀ e : Event, step c e ≠ none → (∃ d, e = Event.connect d) ∨ e = Event.stopCall)) ∧
    (∀ (c c1 : WSClient) (err : String), step c (Event.loopDial (some err)) = some c1 →
      c.reconnect = 0 → c.stop = false → ∀ e : Event, e.isLoopMove = true → step c1 e = none) := by
  refine ⟨⟨{ conn := none, reconnect := 0, stop := false, readers := 0,
             loop := some LoopPos.select, backoff := 2 * Second }, by decide, rfl, rfl, rfl, rfl,
    rfl, ?_, ?_⟩, fun c c1 err h hr hs e he => loop_blocked_after_failed_dial c c1 err h hr hs e he⟩
  · intro e he
    cases e <;> simp_all [Event.isLoopMove, step]
  · intro e he
    cases e <;> simp_all [step]

/-- C7: evaluation of `IsConnected` after a read error. After a successful `Connect()` the status
is true, and after the read loop has met a read error, signalled and returned, the status is
still true; in every state a read error leaves the status as it was. -/
theorem isConnected_true_after_read_error :
    (∃ c0 c, run NewWSClient [Event.connect none] = some c0 ∧ IsConnected c0 = true ∧
      step c0 Event.readError = some c ∧ c.readers = 0 ∧ c.reconnect = 1 ∧
      IsConnected c = true) ∧
    (∀ c c1 : WSClient, step c Event.readError = some c1 → IsConnected c1 = IsConnected c) := by
  refine ⟨⟨{ conn := some { closed := false }, reconnect := 0, stop := false, readers := 1,
             loop := none, backoff := Second },
    { conn := some { closed := false }, reconnect := 1, stop := false, readers := 0,
      loop := none, backoff := Second }, by decide, by decide, by decide, rfl, rfl, by decide⟩,
    readError_keeps_conn⟩

/-- C8: evaluation of `Stop` called twice. The first call on a connected client returns, and the
second call panics on closing the stop channel again, so that two `Stop()` events in a row cannot
both happen, and of two `POST /reload` requests the first answers 200 and the second panics; in
every state, a `Stop()` that follows a `Stop()` that returned panics. -/
theorem second_Stop_panics :
    (∃ c1, Stop (Connect NewWSClient none).1 = Except.ok c1 ∧
      Stop c1 = Except.error "panic: close of closed channel" ∧
      handleReload "POST" (Connect NewWSClient none).1 =
        Except.ok (c1, 200, "Reload initiated") ∧
      handleReload "POST" c1 = Except.error "panic: close of closed channel") ∧
    run NewWSClient [Event.connect none, Event.stopCall] ≠ none ∧
    run NewWSClient [Event.connect none, Event.stopCall, Event.stopCall] = none ∧
    (∀ c c1 : WSClient, Stop c = Except.ok c1 →
      Stop c1 = Except.error "panic: close of closed channel") := by
  exact ⟨⟨{ conn := some { closed := true }, reconnect := 0, stop := true, readers := 1,
            loop := none, backoff := Second }, rfl, rfl, rfl, rfl⟩, by decide, by decide,
    Stop_after_Stop⟩

/-- C9: evaluation of the reconnect loop when `Stop()` comes during the backoff sleep. The stop
signal is set while the loop sleeps, and the next step of the loop is still a dial: `Connect()`
runs, succeeds and leaves a new open connection and a new read loop. In every state in which the
loop sleeps, the dial that follows can happen whether or not the stop signal is set. -/
theorem dial_after_Stop :
    (∃ c1 c2, run NewWSClient [Event.startReconnectLoop, Event.connect none, Event.readError,
        Event.loopReconnect, Event.stopCall] = some c1 ∧
      c1.stop = true ∧ c1.loop = some LoopPos.sleeping ∧
      (Event.loopDial none).isLoopDial = true ∧ step c1 (Event.loopDial none) = some c2 ∧
      c2.stop = true ∧ c2.conn = some { closed := false } ∧ c2.readers = 1) ∧
    (∀ (c : WSClient) (d : Option String), c.loop = some LoopPos.sleeping →
      step c (Event.loopDial d) ≠ none) := by
  refine ⟨⟨{ conn := some { closed := true }, reconnect := 0, stop := true, readers := 0,
             loop := some LoopPos.sleeping, backoff := Second },
    { conn := some { closed := false }, reconnect := 0, stop := true, readers := 1,
      loop := some LoopPos.select, backoff := Second }, by decide, rfl, rfl, rfl, by decide, rfl,
    rfl, rfl⟩, loopDial_ignores_stop⟩

end TunnelAgent
